import Mathlib

/-!
Verification of the multi-signal Q&A retrieval engine of ExamPrepAgent.

The definitions below are a shallow embedding of the retrieval core:
  - `TiDBConnection.get_random_qa` and `TiDBConnection.search_pair`
    (src/database/tidb.py): multi-field full-text result fusion, scoring,
    fallback and randomized selection;
  - `utils/ques_select.get_random_qa` and the MCP tool wrapper
    `get_random_question` (src/main.py).

Python floats are modelled as `Rat` (no claim depends on floating-point
rounding), Python dicts keyed by record id as insertion-ordered association
lists, SQL result sets and the corpus as explicit list parameters, a raised
exception inside a `try` block as an `Except`/`Bool` input, and `random.choice`
as an arbitrary index reduced modulo the list length.
-/

/-- A row of the `kubernetes_qa_pairs` table (the Corpus Store record). -/
structure QARecord where
  id : Nat
  question : String
  answer : String
  topic : String
  qtype : String
  difficulty : String
  deriving Repr, DecidableEq

/-- A row returned by one field-scoped full-text search: the record plus the
optional `_score` column (`result.get('_score', default)` in the source). -/
structure Row where
  record : QARecord
  scoreOpt : Option Rat
  deriving Repr, DecidableEq

/-- A value of the fusion dictionary `results_dict` in `get_random_qa` /
`search_pair`: record fields plus combined score and match type. -/
structure Candidate where
  id : Nat
  question : String
  answer : String
  topic : String
  qtype : String
  difficulty : String
  score : Rat
  match_type : String
  deriving Repr, DecidableEq

/-- The pair actually returned to the caller of
`TiDBConnection.get_random_qa` (scoring metadata stripped). -/
structure QAOut where
  question : String
  answer : String
  deriving Repr, DecidableEq

/-- `results_dict` as an insertion-ordered association list keyed by record id
(a Python dict preserves insertion order; assignment to an existing key
updates in place). -/
abbrev Dict := List (Nat × Candidate)

/-- In-place overwrite of the value stored at key `k` (the position of the
entry in the dict is preserved, as in Python). -/
def updateKey (d : Dict) (k : Nat) (v : Candidate) : Dict :=
  d.map (fun p => if p.1 = k then (k, v) else p)

/-- Python dict assignment `d[k] = v`: overwrite in place if the key is
present, else append at the end. -/
def dictSet (d : Dict) (k : Nat) (v : Candidate) : Dict :=
  if (List.lookup k d).isSome then updateKey d k v
  else d ++ [(k, v)]

/-- Candidate built from a question-field search row:
score `result.get('_score', 1.0)`, match type `"question"`. -/
def questionCand (r : Row) : Candidate :=
  { id := r.record.id, question := r.record.question, answer := r.record.answer,
    topic := r.record.topic, qtype := r.record.qtype, difficulty := r.record.difficulty,
    score := r.scoreOpt.getD 1, match_type := "question" }

/-- Candidate built from an answer-field search row whose id is new:
score `result.get('_score', 0.8)`, match type `"answer"`. -/
def answerCand (r : Row) : Candidate :=
  { id := r.record.id, question := r.record.question, answer := r.record.answer,
    topic := r.record.topic, qtype := r.record.qtype, difficulty := r.record.difficulty,
    score := r.scoreOpt.getD (4/5), match_type := "answer" }

/-- In-place update when an answer-field row hits an id already present:
`match_type = "both"`, `score = max(existingScore, answerScore) + 0.2`. -/
def bothUpdate (c : Candidate) (r : Row) : Candidate :=
  { c with match_type := "both",
           score := max c.score (r.scoreOpt.getD (4/5)) + 1/5 }

/-- One iteration of the question-results loop:
`results_dict[result['id']] = {...}`. -/
def stepQuestion (d : Dict) (r : Row) : Dict :=
  dictSet d r.record.id (questionCand r)

/-- One iteration of the answer-results loop: insert if the id is new,
otherwise update in place to a `"both"` match with the score bonus. -/
def stepAnswer (d : Dict) (r : Row) : Dict :=
  match List.lookup r.record.id d with
  | none => dictSet d r.record.id (answerCand r)
  | some c => updateKey d r.record.id (bothUpdate c r)

/-- The fusion dictionary after both loops, shared verbatim between
`get_random_qa` (lines 81-146) and `search_pair` (lines 218-283). -/
def fuseDict (qRows aRows : List Row) : Dict :=
  aRows.foldl stepAnswer (qRows.foldl stepQuestion [])

/-- `list(results_dict.values())`: the fused candidate list of one pass. -/
def fuse (qRows aRows : List Row) : List Candidate :=
  (fuseDict qRows aRows).map Prod.snd

/-- Comparison used by `qa_list.sort(key=lambda x: x['score'], reverse=True)`:
descending by score. -/
def scoreGE (a b : Candidate) : Bool := decide (b.score ≤ a.score)

/-- Python `list.sort(key=score, reverse=True)`: a stable merge sort into
non-increasing score order. -/
def sortByScoreDesc (l : List Candidate) : List Candidate :=
  l.mergeSort scoreGE

/-- A field-scoped search wrapped in its `try/except`: a failed search
contributes an empty result set to fusion. -/
def contribution (res : Except Unit (List Row)) : List Row :=
  match res with
  | Except.ok rows => rows
  | Except.error _ => []

/-- Embeds `TiDBConnection.search_pair` (src/database/tidb.py lines 210-295):
fuse the two field-scoped result sets (each `Except.error` when that search
raised), sort descending by score, truncate to `limit`. -/
def search_pair (qSearch aSearch : Except Unit (List Row)) (limit : Nat) :
    List Candidate :=
  (sortByScoreDesc (fuse (contribution qSearch) (contribution aSearch))).take limit

/-- The static list of 30 Kubernetes topics hard-coded in `get_random_qa`. -/
def KUBERNETES_TOPICS : List String :=
  ["pods", "services", "deployments", "replicasets", "statefulsets",
   "daemonsets", "jobs", "cronjobs", "namespaces", "configmaps", "secrets",
   "persistent volumes", "persistent volume claims", "storage classes",
   "ingress", "network policies", "service accounts", "rbac", "cluster roles",
   "role bindings", "labels and selectors", "annotations",
   "taints and tolerations", "node affinity", "pod affinity",
   "horizontal pod autoscaler", "vertical pod autoscaler", "resource quotas",
   "limit ranges", "custom resource definitions"]

/-- Python truthiness of the optional `topic` string argument: `if not topic:`
fires on `None` and on the empty string. -/
def strFalsy : Option String → Bool
  | none => true
  | some s => s.isEmpty

/-- Topic resolution of `get_random_qa` lines 74-76: when `topic` is falsy,
`random.choice(KUBERNETES_TOPICS)`, modelled by an arbitrary index into the
static list; otherwise the caller's topic is used unchanged. -/
def effectiveTopic (topic : Option String) (pick : Fin KUBERNETES_TOPICS.length) :
    String :=
  if strFalsy topic then KUBERNETES_TOPICS.get pick else topic.getD ""

/-- Python `str.lower()`, modelled structurally as the ASCII case map over
the string's characters (kernel-reducible, unlike `String.toLower` which is
defined by well-founded recursion on byte positions). -/
def pyLower (s : String) : String := String.mk (s.data.map Char.toLower)

/-- Rows fetched by the fallback SQL of `get_random_qa` lines 156-164:
all records, with `WHERE difficulty = %s` (parameter `difficulty.lower()`)
when a difficulty was supplied. -/
def fallbackRows (corpus : List QARecord) (difficulty : Option String) :
    List QARecord :=
  match difficulty with
  | none => corpus
  | some d => corpus.filter (fun r => r.difficulty == pyLower d)

/-- Candidates built from the fallback rows (lines 169-181): neutral score
`1.0` and `match_type = "query"`. -/
def fallbackCandidates (recs : List QARecord) : List Candidate :=
  recs.map (fun r =>
    { id := r.id, question := r.question, answer := r.answer, topic := r.topic,
      qtype := r.qtype, difficulty := r.difficulty,
      score := 1, match_type := "query" })

/-- The post-hoc difficulty filter of lines 184-185: case-insensitive exact
match `qa['difficulty'].lower() == difficulty.lower()`. -/
def difficultyFilter (d : String) (l : List Candidate) : List Candidate :=
  l.filter (fun c => pyLower c.difficulty == pyLower d)

/-- Embeds `TiDBConnection.get_random_qa` (src/database/tidb.py lines 35-208)
from the fusion step on.  `corpus` is the `kubernetes_qa_pairs` table,
`qSearch`/`aSearch` the field-scoped search outcomes (`Except.error` when the
search raised inside its inner `try`), `fallbackOk = false` means the fallback
`cursor.execute` raised, reaching the outer `except` which returns `None`,
and `pick` models `random.choice` over the final list.  The effective topic
(see `effectiveTopic`) only parametrizes the searches, which are inputs here.
Returns `none` exactly where the Python returns `None`. -/
def get_random_qa (corpus : List QARecord) (difficulty : Option String)
    (qSearch aSearch : Except Unit (List Row)) (fallbackOk : Bool)
    (pick : Nat) : Option (List QAOut) :=
  let fused := sortByScoreDesc (fuse (contribution qSearch) (contribution aSearch))
  let qa0 := fused.take 5
  let qa1opt : Option (List Candidate) :=
    if qa0.isEmpty then
      if fallbackOk then
        let rows := fallbackRows corpus difficulty
        if rows.isEmpty then none else some (fallbackCandidates rows)
      else none
    else some qa0
  match qa1opt with
  | none => none
  | some qa1 =>
    let qa2 :=
      match difficulty with
      | some d => if qa1.isEmpty then qa1 else difficultyFilter d qa1
      | none => qa1
    match qa2 with
    | [] => none
    | c :: cs =>
      let sel := (c :: cs).get ⟨pick % (c :: cs).length,
        Nat.mod_lt _ (Nat.succ_pos cs.length)⟩
      some [{ question := sel.question, answer := sel.answer }]

/-- A dynamically-typed Python value as passed for the `qa_list` parameter of
`utils/ques_select.get_random_qa`: `None`, a string, or a list of Q&A dicts
(modelled by `QARecord`; the extra `id` field is harmless to `dict.get`). -/
inductive PyVal where
  | pynone
  | pystr (s : String)
  | pylist (l : List QARecord)
  deriving Repr, DecidableEq

/-- Python truthiness of a `PyVal`: `None` and empty containers are falsy. -/
def PyVal.truthy : PyVal → Bool
  | .pynone => false
  | .pystr s => !s.isEmpty
  | .pylist l => !l.isEmpty

/-- Embeds `utils/ques_select.get_random_qa(qa_list, difficulty=None,
topic=None)` (src/utils/ques_select.py lines 8-36): `if not qa_list: return
None`, then case-insensitive difficulty and topic filters, then
`random.choice`.  A truthy non-list `qa_list` makes `qa_list.copy()` raise
`AttributeError`, modelled as `Except.error`. -/
def ques_select_get_random_qa (qa_list : PyVal)
    (difficulty topic : Option String) (pick : Nat) :
    Except String (Option QARecord) :=
  if !qa_list.truthy then Except.ok none
  else
    match qa_list with
    | PyVal.pylist l =>
      let f1 :=
        if !(strFalsy difficulty) then
          l.filter (fun qa => pyLower qa.difficulty == pyLower (difficulty.getD ""))
        else l
      let f2 :=
        if !(strFalsy topic) then
          f1.filter (fun qa => pyLower qa.topic == pyLower (topic.getD ""))
        else f1
      match f2 with
      | [] => Except.ok none
      | c :: cs => Except.ok (some ((c :: cs).get ⟨pick % (c :: cs).length,
          Nat.mod_lt _ (Nat.succ_pos cs.length)⟩))
    | _ => Except.error "AttributeError"

/-- Embeds the MCP tool `get_random_question` of src/main.py lines 8-23: its
body calls `get_random_qa(difficulty, topic)`, which binds `difficulty` to
the `qa_list` parameter of `utils/ques_select.get_random_qa` and `topic` to
its `difficulty` parameter, leaving its `topic` parameter at `None`. -/
def main_get_random_question (difficulty topic : Option String) (pick : Nat) :
    Except String (Option QARecord) :=
  ques_select_get_random_qa
    (match difficulty with
     | none => PyVal.pynone
     | some s => PyVal.pystr s)
    topic none pick

/-- Sample corpus record with difficulty `"beginner"`, used as concrete input. -/
def recB : QARecord :=
  { id := 1, question := "What is a Pod?",
    answer := "A Pod is a group of containers.", topic := "pods",
    qtype := "mcq", difficulty := "beginner" }

/-- Sample corpus record with difficulty `"advanced"`, used as concrete input. -/
def recA : QARecord :=
  { id := 2, question := "Explain network policies.",
    answer := "Network policies restrict traffic.", topic := "network policies",
    qtype := "practical", difficulty := "advanced" }

/-- Sample search row: `recB` matched with score 1. -/
def rowB : Row := { record := recB, scoreOpt := some 1 }

/-- Sample search row: `recA` matched with score 9/10. -/
def rowA : Row := { record := recA, scoreOpt := some (9/10) }

/-- The record ids of a list of search rows, in order. -/
def ids (l : List Row) : List Nat := l.map (fun r => r.record.id)

theorem keys_updateKey (d : Dict) (k : Nat) (v : Candidate) :
    (updateKey d k v).map Prod.fst = d.map Prod.fst := by
  unfold updateKey
  rw [List.map_map]
  apply List.map_congr_left
  intro p _
  by_cases h : p.1 = k <;> simp [h]

theorem lookup_cons_ite (a k : Nat) (b : Candidate) (t : Dict) :
    List.lookup k ((a, b) :: t) = if k = a then some b else List.lookup k t := by
  rw [List.lookup_cons]
  by_cases h : k = a
  · simp [h]
  · have hb : (k == a) = false := by simpa using h
    simp [h, hb]

theorem updateKey_cons (a k : Nat) (b v : Candidate) (t : Dict) :
    updateKey ((a, b) :: t) k v =
      (if a = k then (k, v) else (a, b)) :: updateKey t k v := rfl

theorem lookup_updateKey_self (d : Dict) (k : Nat) (v : Candidate) :
    List.lookup k (updateKey d k v) =
      if (List.lookup k d).isSome then some v else none := by
  induction d with
  | nil => simp [updateKey]
  | cons p t ih =>
    obtain ⟨a, b⟩ := p
    by_cases h : a = k
    · subst h
      simp [updateKey_cons, lookup_cons_ite]
    · have hk : ¬(k = a) := fun hh => h hh.symm
      rw [updateKey_cons, if_neg h, lookup_cons_ite, if_neg hk,
        lookup_cons_ite, if_neg hk]
      exact ih

theorem lookup_updateKey_ne (d : Dict) (k k' : Nat) (v : Candidate)
    (h : k' ≠ k) : List.lookup k' (updateKey d k v) = List.lookup k' d := by
  induction d with
  | nil => simp [updateKey]
  | cons p t ih =>
    obtain ⟨a, b⟩ := p
    by_cases ha : a = k
    · subst ha
      rw [updateKey_cons, if_pos rfl, lookup_cons_ite, if_neg h,
        lookup_cons_ite, if_neg h]
      exact ih
    · rw [updateKey_cons, if_neg ha, lookup_cons_ite, lookup_cons_ite]
      by_cases hk : k' = a
      · simp [hk]
      · rw [if_neg hk, if_neg hk]
        exact ih

theorem lookup_dictSet_self (d : Dict) (k : Nat) (v : Candidate) :
    List.lookup k (dictSet d k v) = some v := by
  unfold dictSet
  cases hs : List.lookup k d with
  | some c =>
    rw [if_pos (by simp [hs]), lookup_updateKey_self, hs]
    simp
  | none =>
    rw [if_neg (by simp [hs]), List.lookup_append, hs]
    simp [lookup_cons_ite]

theorem lookup_dictSet_ne (d : Dict) (k k' : Nat) (v : Candidate)
    (h : k' ≠ k) : List.lookup k' (dictSet d k v) = List.lookup k' d := by
  unfold dictSet
  cases hs : List.lookup k d with
  | some c =>
    rw [if_pos (by simp [hs])]
    exact lookup_updateKey_ne d k k' v h
  | none =>
    rw [if_neg (by simp [hs]), List.lookup_append]
    rw [lookup_cons_ite]
    simp only [List.lookup_nil, if_neg h]
    cases List.lookup k' d <;> simp

theorem keys_dictSet (d : Dict) (k : Nat) (v : Candidate) :
    (dictSet d k v).map Prod.fst =
      if (List.lookup k d).isSome then d.map Prod.fst
      else d.map Prod.fst ++ [k] := by
  unfold dictSet
  cases hs : List.lookup k d with
  | some c => simp [keys_updateKey]
  | none => simp

theorem nodup_keys_dictSet (d : Dict) (k : Nat) (v : Candidate)
    (h : (d.map Prod.fst).Nodup) : ((dictSet d k v).map Prod.fst).Nodup := by
  rw [keys_dictSet]
  cases hs : List.lookup k d with
  | some c => simpa using h
  | none =>
    rw [if_neg (by simp)]
    rw [List.nodup_append]
    refine ⟨h, List.nodup_singleton k, ?_⟩
    intro x hx hk
    rw [List.lookup_eq_none_iff] at hs
    rw [List.mem_singleton] at hk
    subst hk
    obtain ⟨p, hp, hfst⟩ := List.mem_map.mp hx
    have := hs p hp
    simp only [bne_iff_ne, ne_eq] at this
    exact this hfst.symm

theorem nodup_keys_stepQuestion (d : Dict) (r : Row)
    (h : (d.map Prod.fst).Nodup) : ((stepQuestion d r).map Prod.fst).Nodup :=
  nodup_keys_dictSet d r.record.id (questionCand r) h

theorem nodup_keys_stepAnswer (d : Dict) (r : Row)
    (h : (d.map Prod.fst).Nodup) : ((stepAnswer d r).map Prod.fst).Nodup := by
  unfold stepAnswer
  cases List.lookup r.record.id d with
  | none => exact nodup_keys_dictSet d r.record.id (answerCand r) h
  | some c =>
    rw [keys_updateKey]
    exact h

theorem nodup_keys_foldl_stepQuestion (l : List Row) (d : Dict)
    (h : (d.map Prod.fst).Nodup) :
    ((l.foldl stepQuestion d).map Prod.fst).Nodup := by
  induction l generalizing d with
  | nil => exact h
  | cons x t ih => exact ih (stepQuestion d x) (nodup_keys_stepQuestion d x h)

theorem nodup_keys_foldl_stepAnswer (l : List Row) (d : Dict)
    (h : (d.map Prod.fst).Nodup) :
    ((l.foldl stepAnswer d).map Prod.fst).Nodup := by
  induction l generalizing d with
  | nil => exact h
  | cons x t ih => exact ih (stepAnswer d x) (nodup_keys_stepAnswer d x h)

theorem nodup_keys_fuseDict (qRows aRows : List Row) :
    ((fuseDict qRows aRows).map Prod.fst).Nodup := by
  unfold fuseDict
  exact nodup_keys_foldl_stepAnswer aRows _
    (nodup_keys_foldl_stepQuestion qRows [] (by simp))

/-- Invariant of the fusion dictionary: every stored candidate's `id` field
equals its key. -/
def idConsistent (d : Dict) : Prop := ∀ p ∈ d, (Prod.snd p).id = p.1

theorem idConsistent_updateKey (d : Dict) (k : Nat) (v : Candidate)
    (hv : v.id = k) (h : idConsistent d) : idConsistent (updateKey d k v) := by
  intro p hp
  obtain ⟨q, hq, hmap⟩ := List.mem_map.mp hp
  by_cases hk : q.1 = k
  · rw [if_pos hk] at hmap
    subst hmap
    exact hv
  · rw [if_neg hk] at hmap
    subst hmap
    exact h q hq

theorem idConsistent_dictSet (d : Dict) (k : Nat) (v : Candidate)
    (hv : v.id = k) (h : idConsistent d) : idConsistent (dictSet d k v) := by
  unfold dictSet
  cases hs : List.lookup k d with
  | some c =>
    rw [if_pos (by simp [hs])]
    exact idConsistent_updateKey d k v hv h
  | none =>
    rw [if_neg (by simp [hs])]
    intro p hp
    rcases List.mem_append.mp hp with hl | hr
    · exact h p hl
    · rw [List.mem_singleton] at hr
      subst hr
      exact hv

theorem lookup_mem (d : Dict) (k : Nat) (c : Candidate)
    (h : List.lookup k d = some c) : (k, c) ∈ d := by
  rw [List.lookup_eq_some_iff] at h
  obtain ⟨l₁, l₂, rfl, _⟩ := h
  simp

theorem idConsistent_stepQuestion (d : Dict) (r : Row)
    (h : idConsistent d) : idConsistent (stepQuestion d r) :=
  idConsistent_dictSet d r.record.id (questionCand r) rfl h

theorem idConsistent_stepAnswer (d : Dict) (r : Row)
    (h : idConsistent d) : idConsistent (stepAnswer d r) := by
  unfold stepAnswer
  cases hs : List.lookup r.record.id d with
  | none => exact idConsistent_dictSet d r.record.id (answerCand r) rfl h
  | some c =>
    have hc : c.id = r.record.id := h (r.record.id, c) (lookup_mem d _ c hs)
    exact idConsistent_updateKey d r.record.id (bothUpdate c r) hc h

theorem idConsistent_foldl_stepQuestion (l : List Row) (d : Dict)
    (h : idConsistent d) : idConsistent (l.foldl stepQuestion d) := by
  induction l generalizing d with
  | nil => exact h
  | cons x t ih => exact ih (stepQuestion d x) (idConsistent_stepQuestion d x h)

theorem idConsistent_foldl_stepAnswer (l : List Row) (d : Dict)
    (h : idConsistent d) : idConsistent (l.foldl stepAnswer d) := by
  induction l generalizing d with
  | nil => exact h
  | cons x t ih => exact ih (stepAnswer d x) (idConsistent_stepAnswer d x h)

theorem idConsistent_fuseDict (qRows aRows : List Row) :
    idConsistent (fuseDict qRows aRows) :=
  idConsistent_foldl_stepAnswer aRows _
    (idConsistent_foldl_stepQuestion qRows [] (by intro p hp; cases hp))

theorem fuse_ids_eq_keys (qRows aRows : List Row) :
    (fuse qRows aRows).map Candidate.id = (fuseDict qRows aRows).map Prod.fst := by
  unfold fuse
  rw [List.map_map]
  apply List.map_congr_left
  intro p hp
  exact idConsistent_fuseDict qRows aRows p hp

/-- C2: in every fused candidate list produced by a single fusion pass of
`get_random_qa` or `search_pair`, no two candidates share the same record id:
the fusion dictionary is keyed by id, so a record matching in more than one
field is updated in place, never duplicated. -/
theorem fusion_dedup_invariant (qRows aRows : List Row) :
    ((fuse qRows aRows).map Candidate.id).Nodup := by
  rw [fuse_ids_eq_keys]
  exact nodup_keys_fuseDict qRows aRows

theorem lookup_foldl_stepQuestion_of_not_mem (l : List Row) (d : Dict) (k : Nat)
    (h : ∀ r ∈ l, r.record.id ≠ k) :
    List.lookup k (l.foldl stepQuestion d) = List.lookup k d := by
  induction l generalizing d with
  | nil => rfl
  | cons x t ih =>
    rw [List.foldl_cons]
    rw [ih (stepQuestion d x) (fun r hr => h r (List.mem_cons_of_mem x hr))]
    exact lookup_dictSet_ne d x.record.id k (questionCand x)
      (fun hk => h x (List.mem_cons_self x t) hk.symm) |>.symm ▸ rfl

theorem lookup_foldl_stepAnswer_of_not_mem (l : List Row) (d : Dict) (k : Nat)
    (h : ∀ r ∈ l, r.record.id ≠ k) :
    List.lookup k (l.foldl stepAnswer d) = List.lookup k d := by
  induction l generalizing d with
  | nil => rfl
  | cons x t ih =>
    rw [List.foldl_cons]
    rw [ih (stepAnswer d x) (fun r hr => h r (List.mem_cons_of_mem x hr))]
    have hx : k ≠ x.record.id := fun hk => h x (List.mem_cons_self x t) hk.symm
    unfold stepAnswer
    cases List.lookup x.record.id d with
    | none => exact lookup_dictSet_ne d x.record.id k (answerCand x) hx
    | some c => exact lookup_updateKey_ne d x.record.id k (bothUpdate c x) hx

theorem lookup_foldl_stepQuestion_of_mem (l : List Row) (d : Dict) (r : Row)
    (hr : r ∈ l) (hnd : (l.map (fun x => x.record.id)).Nodup) :
    List.lookup r.record.id (l.foldl stepQuestion d) = some (questionCand r) := by
  induction l generalizing d with
  | nil => cases hr
  | cons x t ih =>
    rw [List.map_cons, List.nodup_cons] at hnd
    rcases List.mem_cons.mp hr with rfl | hmem
    · rw [List.foldl_cons]
      rw [lookup_foldl_stepQuestion_of_not_mem t (stepQuestion d r) r.record.id
        (fun y hy hid => hnd.1 (hid ▸ List.mem_map_of_mem (fun x => x.record.id) hy))]
      exact lookup_dictSet_self d r.record.id (questionCand r)
    · rw [List.foldl_cons]
      exact ih (stepQuestion d x) hmem hnd.2

theorem lookup_foldl_stepAnswer_of_mem (l : List Row) (d : Dict) (r : Row)
    (c : Candidate) (hr : r ∈ l)
    (hnd : (l.map (fun x => x.record.id)).Nodup)
    (hc : List.lookup r.record.id d = some c) :
    List.lookup r.record.id (l.foldl stepAnswer d) = some (bothUpdate c r) := by
  induction l generalizing d with
  | nil => cases hr
  | cons x t ih =>
    rw [List.map_cons, List.nodup_cons] at hnd
    rcases List.mem_cons.mp hr with rfl | hmem
    · rw [List.foldl_cons]
      rw [lookup_foldl_stepAnswer_of_not_mem t (stepAnswer d r) r.record.id
        (fun y hy hid => hnd.1 (hid ▸ List.mem_map_of_mem (fun x => x.record.id) hy))]
      unfold stepAnswer
      rw [hc, lookup_updateKey_self, hc]
      simp
    · rw [List.foldl_cons]
      have hne : r.record.id ≠ x.record.id := by
        intro hid
        exact hnd.1 (hid ▸ List.mem_map_of_mem (fun y => y.record.id) hmem)
      have hc' : List.lookup r.record.id (stepAnswer d x) = some c := by
        unfold stepAnswer
        cases List.lookup x.record.id d with
        | none => rw [lookup_dictSet_ne d x.record.id r.record.id (answerCand x) hne, hc]
        | some c0 => rw [lookup_updateKey_ne d x.record.id r.record.id (bothUpdate c0 x) hne, hc]
      exact ih (stepAnswer d x) hmem hnd.2 hc'

/-- C1: in the result fusion shared by `get_random_qa` and `search_pair`, a
record whose id appears in both the question-field results and the
answer-field results ends up as one fused candidate with
`match_type = "both"` and combined score
`max(questionScore, answerScore) + 0.2`, hence at least
`max(questionScore, answerScore)`.  The `Nodup` hypotheses state that each
field's result set lists every record at most once, which the SQL guarantees
because `id` is the table's key. -/
theorem fusion_both_match_bonus (qRows aRows : List Row) (qr ar : Row)
    (qs ascore : Rat)
    (hq : qr ∈ qRows) (ha : ar ∈ aRows)
    (hid : ar.record.id = qr.record.id)
    (hndq : (qRows.map (fun x => x.record.id)).Nodup)
    (hnda : (aRows.map (fun x => x.record.id)).Nodup)
    (hqs : qr.scoreOpt = some qs) (has : ar.scoreOpt = some ascore) :
    List.lookup qr.record.id (fuseDict qRows aRows) =
      some (bothUpdate (questionCand qr) ar) ∧
    bothUpdate (questionCand qr) ar ∈ fuse qRows aRows ∧
    (bothUpdate (questionCand qr) ar).match_type = "both" ∧
    (bothUpdate (questionCand qr) ar).score = max qs ascore + 1/5 ∧
    max qs ascore ≤ (bothUpdate (questionCand qr) ar).score := by
  have h1 : List.lookup qr.record.id (qRows.foldl stepQuestion []) =
      some (questionCand qr) :=
    lookup_foldl_stepQuestion_of_mem qRows [] qr hq hndq
  have h2 : List.lookup qr.record.id (fuseDict qRows aRows) =
      some (bothUpdate (questionCand qr) ar) := by
    unfold fuseDict
    have h3 := lookup_foldl_stepAnswer_of_mem aRows (qRows.foldl stepQuestion [])
      ar (questionCand qr) ha hnda (by rw [hid]; exact h1)
    rw [hid] at h3
    exact h3
  have hscore : (bothUpdate (questionCand qr) ar).score = max qs ascore + 1/5 := by
    simp [bothUpdate, questionCand, hqs, has]
  refine ⟨h2, ?_, rfl, hscore, ?_⟩
  · unfold fuse
    exact List.mem_map_of_mem Prod.snd (lookup_mem _ _ _ h2)
  · rw [hscore]
    exact le_add_of_nonneg_right (by norm_num)

/-- Sample answer-field search row: `recB` matched again, with score 1/2. -/
def rowB2 : Row := { record := recB, scoreOpt := some (1/2) }

/-- Witness for C1: record `recB` matches the question field with score 1 and
the answer field with score 1/2; the fused candidate is a `"both"` match with
score `max 1 (1/2) + 0.2`. -/
theorem fusion_both_match_bonus_witness :
    List.lookup rowB.record.id (fuseDict [rowB] [rowB2]) =
      some (bothUpdate (questionCand rowB) rowB2) ∧
    bothUpdate (questionCand rowB) rowB2 ∈ fuse [rowB] [rowB2] ∧
    (bothUpdate (questionCand rowB) rowB2).match_type = "both" ∧
    (bothUpdate (questionCand rowB) rowB2).score = max 1 (1/2) + 1/5 ∧
    max (1 : Rat) (1/2) ≤ (bothUpdate (questionCand rowB) rowB2).score :=
  fusion_both_match_bonus [rowB] [rowB2] rowB rowB2 1 (1/2)
    (List.mem_singleton_self rowB) (List.mem_singleton_self rowB2)
    rfl (by simp) (by simp) rfl rfl

theorem sortByScoreDesc_sorted (l : List Candidate) :
    (sortByScoreDesc l).Pairwise (fun a b => b.score ≤ a.score) := by
  have htrans : ∀ (a b c : Candidate), scoreGE a b → scoreGE b c → scoreGE a c := by
    intro a b c hab hbc
    simp only [scoreGE, decide_eq_true_eq] at hab hbc ⊢
    exact le_trans hbc hab
  have htotal : ∀ (a b : Candidate), scoreGE a b || scoreGE b a := by
    intro a b
    simp only [scoreGE]
    rcases le_total b.score a.score with h | h <;> simp [h]
  have h := List.sorted_mergeSort htrans htotal l
  exact h.imp (fun hab => by simpa [scoreGE] using hab)

/-- C6: every call to `search_pair` with limit `L` returns at most `L`
candidates, in non-increasing order of combined score. -/
theorem search_pair_limit_and_sorted (qSearch aSearch : Except Unit (List Row))
    (limit : Nat) :
    (search_pair qSearch aSearch limit).length ≤ limit ∧
    (search_pair qSearch aSearch limit).Pairwise (fun a b => b.score ≤ a.score) := by
  constructor
  · unfold search_pair
    rw [List.length_take]
    exact min_le_left _ _
  · unfold search_pair
    exact List.Pairwise.sublist (List.take_sublist _ _) (sortByScoreDesc_sorted _)

theorem fuse_single_answer (r : Row) : fuse [] [r] = [answerCand r] := by
  simp [fuse, fuseDict, stepAnswer, dictSet]

/-- C7: if the question-field search fails but the answer-field search
succeeds with exactly one hit, neither operation fails: `search_pair`
returns exactly that record as an `"answer"` match, and `get_random_qa`
(with no difficulty filter) returns that record's question and answer. -/
theorem failed_question_search_degrades (r : Row) (limit : Nat)
    (h : 1 ≤ limit) :
    search_pair (Except.error ()) (Except.ok [r]) limit = [answerCand r] ∧
    (answerCand r).match_type = "answer" ∧
    ∀ (corpus : List QARecord) (fallbackOk : Bool) (pick : Nat),
      get_random_qa corpus none (Except.error ()) (Except.ok [r]) fallbackOk pick =
        some [{ question := r.record.question, answer := r.record.answer }] := by
  have hfuse : fuse (contribution (Except.error ())) (contribution (Except.ok [r])) =
      [answerCand r] := by
    simpa [contribution] using fuse_single_answer r
  have hsort : sortByScoreDesc [answerCand r] = [answerCand r] := by
    simp [sortByScoreDesc]
  obtain ⟨n, rfl⟩ : ∃ n, limit = n + 1 :=
    ⟨limit - 1, (Nat.succ_pred_eq_of_pos h).symm⟩
  refine ⟨?_, rfl, ?_⟩
  · unfold search_pair
    rw [hfuse, hsort]
    simp
  · intro corpus fallbackOk pick
    unfold get_random_qa
    rw [hfuse, hsort]
    simp [answerCand, Nat.mod_one]

/-- C3 (amended): when no difficulty filter is requested, the fallback query
succeeds, and the corpus contains at least one record, `get_random_qa`
returns a non-empty result (the broad fallback guarantees a result when the
field searches yield no candidates). -/
theorem get_random_qa_nonempty_corpus (corpus : List QARecord)
    (qSearch aSearch : Except Unit (List Row)) (pick : Nat)
    (h : corpus ≠ []) :
    (get_random_qa corpus none qSearch aSearch true pick).isSome = true := by
  obtain ⟨r, rs, rfl⟩ : ∃ r rs, corpus = r :: rs := by
    cases corpus with
    | nil => exact absurd rfl h
    | cons r rs => exact ⟨r, rs, rfl⟩
  unfold get_random_qa
  cases hqa0 : (sortByScoreDesc (fuse (contribution qSearch)
      (contribution aSearch))).take 5 with
  | nil => simp [hqa0, fallbackRows, fallbackCandidates]
  | cons c cs => simp [hqa0]

/-- Witness for C3 (amended) at a concrete input: a one-record corpus with
empty search results still yields a result. -/
theorem get_random_qa_nonempty_corpus_witness :
    ([recB] ≠ ([] : List QARecord)) ∧
    (get_random_qa [recB] none (Except.ok []) (Except.ok []) true 0).isSome = true :=
  ⟨by decide, get_random_qa_nonempty_corpus [recB] (Except.ok []) (Except.ok []) 0
    (by decide)⟩

/-- Counterexample to C3 as stated: the corpus holds one beginner record, yet
a call requesting difficulty "advanced" returns `None` — with a non-empty
corpus — because the difficulty-filtered fallback query finds nothing. -/
theorem get_random_qa_nonempty_corpus_counterexample :
    get_random_qa [recB] (some "advanced") (Except.ok []) (Except.ok []) true 0 =
      none ∧
    [recB] ≠ ([] : List QARecord) := by
  constructor
  · have hfuse : fuse (contribution (Except.ok ([] : List Row)))
        (contribution (Except.ok ([] : List Row))) = [] := rfl
    unfold get_random_qa
    rw [hfuse]
    have hsort : sortByScoreDesc [] = [] := by simp [sortByScoreDesc]
    rw [hsort]
    decide
  · decide

/-- C4 (amended): when the fused candidate list is non-empty and a difficulty
is specified, the filter is a case-insensitive exact match on the record's
difficulty field, but if the filtering empties the list the operation returns
`None` — the broad fallback query is NOT re-run (it is only consulted when
the fused list was empty to begin with). -/
theorem difficulty_filter_no_refallback (corpus : List QARecord) (d : String)
    (qSearch aSearch : Except Unit (List Row)) (fallbackOk : Bool) (pick : Nat)
    (h : (sortByScoreDesc (fuse (contribution qSearch)
        (contribution aSearch))).take 5 ≠ []) :
    (get_random_qa corpus (some d) qSearch aSearch fallbackOk pick = none ↔
      difficultyFilter d ((sortByScoreDesc (fuse (contribution qSearch)
        (contribution aSearch))).take 5) = []) := by
  obtain ⟨c, cs, hqa0⟩ : ∃ c cs,
      (sortByScoreDesc (fuse (contribution qSearch)
        (contribution aSearch))).take 5 = c :: cs := by
    cases hq : (sortByScoreDesc (fuse (contribution qSearch)
        (contribution aSearch))).take 5 with
    | nil => exact absurd hq h
    | cons c cs => exact ⟨c, cs, rfl⟩
  unfold get_random_qa
  cases hf : difficultyFilter d (c :: cs) with
  | nil => simp [hqa0, hf]
  | cons e es => simp [hqa0, hf]

/-- Witness for C4 (amended): a fused beginner-only candidate list filtered
with difficulty "advanced" makes the call return `None`. -/
theorem difficulty_filter_no_refallback_witness :
    ((sortByScoreDesc (fuse (contribution (Except.ok [rowB]))
        (contribution (Except.ok [])))).take 5 ≠ []) ∧
    (get_random_qa [recB, recA] (some "advanced") (Except.ok [rowB])
        (Except.ok []) true 0 = none ↔
      difficultyFilter "advanced" ((sortByScoreDesc (fuse
        (contribution (Except.ok [rowB]))
        (contribution (Except.ok [])))).take 5) = []) :=
  ⟨by simp [contribution, fuse, fuseDict, stepQuestion, dictSet, sortByScoreDesc],
   difficulty_filter_no_refallback [recB, recA] "advanced" (Except.ok [rowB])
    (Except.ok []) true 0
    (by simp [contribution, fuse, fuseDict, stepQuestion, dictSet, sortByScoreDesc])⟩

/-- Counterexample to C4 as stated: the fused list is non-empty (one beginner
match), the requested difficulty "advanced" empties it, the corpus does hold
an advanced record the fallback query would return — yet the call returns
`None` instead of proceeding to the fallback. -/
theorem difficulty_filter_no_refallback_counterexample :
    (sortByScoreDesc (fuse (contribution (Except.ok [rowB]))
        (contribution (Except.ok ([] : List Row))))).take 5 = [questionCand rowB] ∧
    difficultyFilter "advanced" [questionCand rowB] = [] ∧
    fallbackRows [recB, recA] (some "advanced") = [recA] ∧
    get_random_qa [recB, recA] (some "advanced") (Except.ok [rowB])
      (Except.ok []) true 0 = none := by
  have hfuse : fuse (contribution (Except.ok [rowB]))
      (contribution (Except.ok ([] : List Row))) = [questionCand rowB] := by
    simp [contribution, fuse, fuseDict, stepQuestion, dictSet]
  have hsort : sortByScoreDesc [questionCand rowB] = [questionCand rowB] := by
    simp [sortByScoreDesc]
  refine ⟨by rw [hfuse, hsort]; rfl, by decide, by decide, ?_⟩
  unfold get_random_qa
  rw [hfuse, hsort]
  decide

/-- C5 (amended): when both field-scoped searches fail and the fallback query
also fails, `get_random_qa` returns `None` and `search_pair` returns the
empty list — the very same values these operations use for a legitimate
"no match" outcome, so total failure is logged but not distinguishable by
the caller. -/
theorem total_failure_returns_no_match_sentinel (corpus : List QARecord)
    (difficulty : Option String) (e1 e2 : Unit) (pick limit : Nat) :
    get_random_qa corpus difficulty (Except.error e1) (Except.error e2)
      false pick = none ∧
    search_pair (Except.error e1) (Except.error e2) limit = [] := by
  constructor
  · unfold get_random_qa
    simp [contribution, fuse, fuseDict, sortByScoreDesc]
  · unfold search_pair
    simp [contribution, fuse, fuseDict, sortByScoreDesc]

/-- Counterexample to C5 as stated: a total-failure call and a legitimate
no-match call return identical values (`none` and `[]` respectively), so the
aggregated failure is not distinguishable from "no match". -/
theorem total_failure_counterexample :
    get_random_qa [recB] none (Except.error ()) (Except.error ()) false 0 =
      none ∧
    get_random_qa [] none (Except.ok []) (Except.ok []) true 0 = none ∧
    search_pair (Except.error ()) (Except.error ()) 3 = [] ∧
    search_pair (Except.ok []) (Except.ok []) 3 = [] := by
  have hsort : sortByScoreDesc [] = [] := by simp [sortByScoreDesc]
  refine ⟨?_, ?_, ?_, ?_⟩
  · unfold get_random_qa
    rw [show fuse (contribution (Except.error ()))
        (contribution (Except.error ())) = [] from rfl, hsort]
    decide
  · unfold get_random_qa
    rw [show fuse (contribution (Except.ok ([] : List Row)))
        (contribution (Except.ok ([] : List Row))) = [] from rfl, hsort]
    decide
  · unfold search_pair
    rw [show fuse (contribution (Except.error ()))
        (contribution (Except.error ())) = [] from rfl, hsort]
    rfl
  · unfold search_pair
    rw [show fuse (contribution (Except.ok ([] : List Row)))
        (contribution (Except.ok ([] : List Row))) = [] from rfl, hsort]
    rfl

/-- C8 (amended): every candidate produced from the fallback query carries
the neutral default score 1.0 and `match_type = "query"` (not `"fallback"`:
the source labels fallback results with the string "query"). -/
theorem fallback_candidates_score_and_tag (recs : List QARecord)
    (c : Candidate) (h : c ∈ fallbackCandidates recs) :
    c.score = 1 ∧ c.match_type = "query" := by
  obtain ⟨r, _, rfl⟩ := List.mem_map.mp h
  exact ⟨rfl, rfl⟩

/-- Witness for C8 (amended) at a concrete input. -/
theorem fallback_candidates_score_and_tag_witness :
    (fallbackCandidates [recB]).head?.isSome = true ∧
    ∀ c0 ∈ (fallbackCandidates [recB]).head?, c0.score = 1 ∧ c0.match_type = "query" := by
  refine ⟨by decide, ?_⟩
  intro c0 hc0
  exact fallback_candidates_score_and_tag [recB] c0
    (List.mem_of_mem_head? hc0)

/-- Counterexample to C8 as stated: a candidate produced by the fallback has
`match_type = "query"`, which differs from the claimed `"fallback"`. -/
theorem fallback_candidates_tag_counterexample :
    ∃ c ∈ fallbackCandidates [recB], c.match_type ≠ "fallback" := by
  decide

/-- C9: when no topic is supplied (or the empty string is supplied), the
effective topic used for the field-scoped searches is `random.choice` over
the fixed static vocabulary: whatever index is drawn, the chosen topic is a
member of `KUBERNETES_TOPICS`, which has exactly 30 distinct entries. -/
theorem random_topic_from_static_vocabulary (topic : Option String)
    (pick : Fin KUBERNETES_TOPICS.length) (h : strFalsy topic = true) :
    effectiveTopic topic pick = KUBERNETES_TOPICS.get pick ∧
    effectiveTopic topic pick ∈ KUBERNETES_TOPICS ∧
    KUBERNETES_TOPICS.length = 30 ∧
    KUBERNETES_TOPICS.Nodup := by
  have he : effectiveTopic topic pick = KUBERNETES_TOPICS.get pick := by
    unfold effectiveTopic
    rw [h]
    rfl
  refine ⟨he, ?_, by decide, by decide⟩
  rw [he]
  exact List.get_mem KUBERNETES_TOPICS pick.1 pick.2

/-- Witness for C9 at a concrete input: no topic supplied, index 0 drawn. -/
theorem random_topic_from_static_vocabulary_witness :
    (strFalsy none = true) ∧
    (effectiveTopic none ⟨0, by decide⟩ =
      KUBERNETES_TOPICS.get ⟨0, by decide⟩ ∧
    effectiveTopic none ⟨0, by decide⟩ ∈ KUBERNETES_TOPICS ∧
    KUBERNETES_TOPICS.length = 30 ∧
    KUBERNETES_TOPICS.Nodup) :=
  ⟨rfl, random_topic_from_static_vocabulary none ⟨0, by decide⟩ rfl⟩

/-- C10: the MCP tool `get_random_question` of src/main.py, called with the
default `difficulty = None`, always returns `None` regardless of any corpus:
its positional call `get_random_qa(difficulty, topic)` binds `difficulty` to
the `qa_list` parameter of `utils/ques_select.get_random_qa`, whose initial
check `if not qa_list: return None` then fires. -/
theorem main_get_random_question_default_none (topic : Option String)
    (pick : Nat) :
    main_get_random_question none topic pick = Except.ok none := rfl

/-- Witness for C7 at a concrete input: question search fails, answer search
returns exactly `rowB`; both operations still return that record. -/
theorem failed_question_search_degrades_witness :
    search_pair (Except.error ()) (Except.ok [rowB]) 3 = [answerCand rowB] ∧
    (answerCand rowB).match_type = "answer" ∧
    get_random_qa [] none (Except.error ()) (Except.ok [rowB]) true 0 =
      some [{ question := rowB.record.question, answer := rowB.record.answer }] := by
  obtain ⟨h1, h2, h3⟩ := failed_question_search_degrades rowB 3 (by decide)
  exact ⟨h1, h2, h3 [] true 0⟩
